import Mathlib

/-!
Shallow embedding of `src/echo-chamber/src/sequence-detector.js`.

JavaScript numbers are modelled by `JSNum`: an exact rational for finite
values (float rounding is not modelled), the two infinities, and `NaN`.
The IEEE-754 special-value rules of every operator the code uses are
modelled exactly; the signed zero `-0` is identified with `0` (in JS
`-0 === 0`, and the one operation that could distinguish them, division
by a zero denominator, is unreachable: the geometric detector's zero
guard rejects both before any ratio is formed, and the mean divides by a
positive array length).  Array elements as seen by the validator are
modelled by `JSVal`: a finite number, an infinity (which has
`typeof === number` and `isNaN` false, so it PASSES the validator), `NaN`
(`typeof === number` but `isNaN` true), or a non-numeric value.  The
possibly-non-array argument of `analyze` is modelled by `JSInput`.
Result objects are modelled by `DetectionResult`, a record with optional
fields mirroring the dynamic JS objects; absent fields are `none`.
-/

/-- Kinds of the `type` field of a detection result. -/
inductive PatternType where
  | arithmetic
  | geometric
  | polynomial
  | unknown
  | invalid
deriving DecidableEq, Repr

/-- A JavaScript number: an exact rational, `Infinity`, `-Infinity` or
`NaN` (`-0` is identified with `0`). -/
inductive JSNum where
  | fin (q : ℚ)
  | posInf
  | negInf
  | nan
deriving DecidableEq, Repr

instance : Inhabited JSNum := ⟨.fin 0⟩

instance : Zero JSNum := ⟨.fin 0⟩

instance (n : Nat) : OfNat JSNum n := ⟨.fin (n : ℚ)⟩

/-- IEEE addition: `NaN` is absorbing and opposite infinities give `NaN`. -/
def jsAdd : JSNum → JSNum → JSNum
  | .fin a, .fin b => .fin (a + b)
  | .fin _, .posInf => .posInf
  | .fin _, .negInf => .negInf
  | .fin _, .nan => .nan
  | .posInf, .fin _ => .posInf
  | .posInf, .posInf => .posInf
  | .posInf, .negInf => .nan
  | .posInf, .nan => .nan
  | .negInf, .fin _ => .negInf
  | .negInf, .posInf => .nan
  | .negInf, .negInf => .negInf
  | .negInf, .nan => .nan
  | .nan, _ => .nan

/-- IEEE subtraction: `NaN` is absorbing and same-signed infinities give
`NaN`. -/
def jsSub : JSNum → JSNum → JSNum
  | .fin a, .fin b => .fin (a - b)
  | .fin _, .posInf => .negInf
  | .fin _, .negInf => .posInf
  | .fin _, .nan => .nan
  | .posInf, .fin _ => .posInf
  | .posInf, .posInf => .nan
  | .posInf, .negInf => .posInf
  | .posInf, .nan => .nan
  | .negInf, .fin _ => .negInf
  | .negInf, .posInf => .negInf
  | .negInf, .negInf => .nan
  | .negInf, .nan => .nan
  | .nan, _ => .nan

/-- IEEE multiplication: `NaN` is absorbing, infinity times zero is `NaN`,
otherwise infinities follow the sign rule. -/
def jsMul : JSNum → JSNum → JSNum
  | .fin a, .fin b => .fin (a * b)
  | .fin a, .posInf => if a = 0 then .nan else if 0 < a then .posInf else .negInf
  | .fin a, .negInf => if a = 0 then .nan else if 0 < a then .negInf else .posInf
  | .fin _, .nan => .nan
  | .posInf, .fin b => if b = 0 then .nan else if 0 < b then .posInf else .negInf
  | .posInf, .posInf => .posInf
  | .posInf, .negInf => .negInf
  | .posInf, .nan => .nan
  | .negInf, .fin b => if b = 0 then .nan else if 0 < b then .negInf else .posInf
  | .negInf, .posInf => .negInf
  | .negInf, .negInf => .posInf
  | .negInf, .nan => .nan
  | .nan, _ => .nan

/-- IEEE division: `NaN` is absorbing, `0/0` and `inf/inf` are `NaN`,
a nonzero finite over zero is a signed infinity, a finite over an
infinity is zero, an infinity over a finite follows the sign rule
(a zero denominator counting as positive, since `-0` is identified
with `0`).  Unreachable for zero denominators in this program: the
geometric detector's zero guard runs first. -/
def jsDiv : JSNum → JSNum → JSNum
  | .fin a, .fin b =>
    if b = 0 then (if a = 0 then .nan else if 0 < a then .posInf else .negInf)
    else .fin (a / b)
  | .fin _, .posInf => .fin 0
  | .fin _, .negInf => .fin 0
  | .fin _, .nan => .nan
  | .posInf, .fin b => if 0 ≤ b then .posInf else .negInf
  | .posInf, .posInf => .nan
  | .posInf, .negInf => .nan
  | .posInf, .nan => .nan
  | .negInf, .fin b => if 0 ≤ b then .negInf else .posInf
  | .negInf, .posInf => .nan
  | .negInf, .negInf => .nan
  | .negInf, .nan => .nan
  | .nan, _ => .nan

instance : Add JSNum := ⟨jsAdd⟩

instance : Sub JSNum := ⟨jsSub⟩

instance : Mul JSNum := ⟨jsMul⟩

instance : Div JSNum := ⟨jsDiv⟩

/-- `Math.abs`. -/
def jsAbs : JSNum → JSNum
  | .fin q => .fin |q|
  | .posInf => .posInf
  | .negInf => .posInf
  | .nan => .nan

/-- The IEEE strict order `<`: false whenever either side is `NaN`. -/
def jsLt : JSNum → JSNum → Bool
  | .fin a, .fin b => decide (a < b)
  | .fin _, .posInf => true
  | .fin _, .negInf => false
  | .fin _, .nan => false
  | .posInf, _ => false
  | .negInf, .fin _ => true
  | .negInf, .posInf => true
  | .negInf, .negInf => false
  | .negInf, .nan => false
  | .nan, _ => false

/-- The strict-equality test `n === 0` (`-0 === 0` is true; `NaN === 0`
and `Infinity === 0` are false). -/
def jsIsZero : JSNum → Bool
  | .fin q => decide (q = 0)
  | .posInf => false
  | .negInf => false
  | .nan => false

instance : ToString JSNum :=
  ⟨fun n => match n with
    | .fin q => toString q
    | .posInf => "Infinity"
    | .negInf => "-Infinity"
    | .nan => "NaN"⟩

/-- Variant-specific `parameters` payloads of the three detectors. -/
inductive DetectionParams where
  | arith (difference firstTerm : JSNum)
  | geom ( ratio firstTerm : JSNum)
  | poly (degree : Nat) (differences : List (List JSNum))
deriving DecidableEq, Repr

/-- A JavaScript array element as seen by the validator: a finite number,
an infinity (`typeof === number`, `isNaN` false), `NaN`
(`typeof === number`, `isNaN` true), or any non-numeric value. -/
inductive JSVal where
  | num (q : ℚ)
  | inf (positive : Bool)
  | nan
  | other
deriving DecidableEq, Repr

/-- The argument of `analyze`: either an array of values or a non-array. -/
inductive JSInput where
  | arr (elems : List JSVal)
  | notArray
deriving DecidableEq, Repr

/-- The result object of one analysis.  Fields that a given code path does
not set are `none`, mirroring absent properties of the JS object. -/
structure DetectionResult where
  success : Bool := false
  type : PatternType
  error : Option String := none
  pattern : Option String := none
  parameters : Option DetectionParams := none
  formula : Option String := none
  prediction : Option JSNum := none
  confidence : Option JSNum := none
  sequence : Option (List JSNum) := none
  predictions : Option (List JSNum) := none
  extendedSequence : Option (List JSNum) := none
deriving DecidableEq, Repr

/-- The numeric value of an array element, if it is a number (`NaN` and
the infinities ARE numbers in JS: `typeof` gives `number` for them). -/
def toNum : JSVal → Option JSNum
  | .num q => some (.fin q)
  | .inf b => some (if b then .posInf else .negInf)
  | .nan => some .nan
  | .other => none

/-- The validator's per-element rejection test
`typeof num !== number || isNaN(num)`.  `isNaN(Infinity)` is false, so
the infinities PASS this test. -/
def isInvalidElem : JSVal → Bool
  | .num _ => false
  | .inf _ => false
  | .nan => true
  | .other => true

/-- A number as an array element (the inverse of `toNum` on numbers),
used when `predictMultiple` feeds a number array back to `analyze`. -/
def ofNum : JSNum → JSVal
  | .fin q => .num q
  | .posInf => .inf true
  | .negInf => .inf false
  | .nan => .nan

/-- The tolerance constant `0.0001` used by every constancy check. -/
def tol : ℚ := 1 / 10000

/-- `l[l.length - 1]` as in the JS code (`0` for the empty list, which
the code never accesses). -/
def lastElem {α : Type} [Zero α] (l : List α) : α := l.getLastD 0

/-- The exact arithmetic mean of a list of rationals, used to state the
finite-input behaviour of the detectors (`0` for the empty list). -/
def mean (l : List ℚ) : ℚ := l.sum / l.length

/-- The list `[s[1]-s[0], s[2]-s[1], ...]` of consecutive differences. -/
def consecutiveDiffs {α : Type} [Sub α] (s : List α) : List α :=
  List.zipWith (fun a b => b - a) s s.tail

/-- The list `[s[1]/s[0], s[2]/s[1], ...]` of consecutive ratios. -/
def consecutiveRatios {α : Type} [Div α] (s : List α) : List α :=
  List.zipWith (fun a b => b / a) s s.tail

/-- `reduce((a, b) => a + b, 0) / length` over JS numbers (`NaN` for the
empty list, where it is the division `0/0`). -/
def jsMean (l : List JSNum) : JSNum := (l.foldl (· + ·) 0) / .fin (l.length : ℚ)

/-- `detectArithmetic` from the source: constant-difference test against
the mean difference, strict tolerance `tol`. -/
def detectArithmetic (sequence : List JSNum) : Option DetectionResult :=
  let differences := consecutiveDiffs sequence
  let avgDifference := jsMean differences
  if ∀ d ∈ differences, jsLt (jsAbs (d - avgDifference)) (.fin tol) = true then
    some { success := true
           type := .arithmetic
           pattern := some "Arithmetic Progression"
           parameters := some (.arith avgDifference sequence.headI)
           formula := some ("a(n) = " ++ toString sequence.headI ++ " + "
             ++ toString avgDifference ++ " * (n - 1)")
           prediction := some (lastElem sequence + avgDifference)
           confidence := some 1
           sequence := some sequence }
  else none

/-- `detectGeometric` from the source: declines when any element is zero,
otherwise constant-ratio test against the mean ratio, plus the guard
`|avgRatio| > tol`. -/
def detectGeometric (sequence : List JSNum) : Option DetectionResult :=
  if ∃ n ∈ sequence, jsIsZero n = true then none
  else
    let ratios := consecutiveRatios sequence
    let avgRatio := jsMean ratios
    if (∀ r ∈ ratios, jsLt (jsAbs (r - avgRatio)) (.fin tol) = true) ∧
        jsLt (.fin tol) (jsAbs avgRatio) = true then
      some { success := true
             type := .geometric
             pattern := some "Geometric Progression"
             parameters := some (.geom avgRatio sequence.headI)
             formula := some ("a(n) = " ++ toString sequence.headI ++ " * "
               ++ toString avgRatio ++ "^(n - 1)")
             prediction := some (lastElem sequence * avgRatio)
             confidence := some 1
             sequence := some sequence }
    else none

/-- The difference-level loop of `detectPolynomial`.  `fuel` is the number
of remaining iterations (the JS loop runs while `level < 5`, so the top
call has `fuel = 5`, and `fuel = 5 - level` throughout); `level` is the JS
loop counter.  Returns the levels pushed onto `diffLevels` (after the
original sequence) and the detected `degree` (`0` when no level up to the
bound is constant). -/
def polyLoop : Nat → Nat → List JSNum → List (List JSNum) × Nat
  | 0, _, _ => ([], 0)
  | fuel + 1, level, currentLevel =>
    if 1 < currentLevel.length then
      let nextLevel := consecutiveDiffs currentLevel
      if 0 < nextLevel.length ∧
          ∀ d ∈ nextLevel, jsLt (jsAbs (d - jsMean nextLevel)) (.fin tol) = true then
        ([nextLevel], level + 1)
      else
        let rest := polyLoop fuel (level + 1) nextLevel
        (nextLevel :: rest.1, rest.2)
    else ([], 0)

/-- One pass of the extension loop of `predictFromDifferences`, expressed
recursively: the JS loop walks `i` from the deepest level down to `1`, so
the deeper suffix of the table is processed first, and then the step for
the current pair pushes the (already-extended) child level's last value
onto the child again and its sum with the parent's last value onto the
parent. -/
def extendAll : List (List JSNum) → List (List JSNum)
  | [] => []
  | [l] => [l]
  | parentLevel :: next :: rest =>
    match extendAll (next :: rest) with
    | [] => [parentLevel]
    | currentLevel :: deeper =>
      if 0 < currentLevel.length then
        let lastValue := lastElem currentLevel
        (parentLevel ++ [lastElem parentLevel + lastValue]) ::
          (currentLevel ++ [lastValue]) :: deeper
      else parentLevel :: currentLevel :: deeper

/-- `predictFromDifferences` from the source: extend every level (working on
a copy of the table) and return the last value of the extended level 0. -/
def predictFromDifferences (diffLevels : List (List JSNum)) : JSNum :=
  lastElem (extendAll diffLevels).headI

/-- `detectPolynomial` from the source: needs length at least 4, builds the
difference table, accepts when the detected degree is between 1 and 4. -/
def detectPolynomial (sequence : List JSNum) : Option DetectionResult :=
  if sequence.length < 4 then none
  else
    let res := polyLoop 5 0 sequence
    let diffLevels := sequence :: res.1
    let degree := res.2
    if 0 < degree ∧ degree ≤ 4 then
      some { success := true
             type := .polynomial
             pattern := some ("Polynomial Sequence (Degree " ++ toString degree ++ ")")
             parameters := some (.poly degree diffLevels)
             formula := some ("Polynomial of degree " ++ toString degree)
             prediction := some (predictFromDifferences diffLevels)
             confidence := some (.fin (9 / 10))
             sequence := some sequence }
    else none

/-- The detector waterfall run by `analyze` after validation: arithmetic,
then geometric, then polynomial, then the `unknown` fallback. -/
def analyzeNums (sequence : List JSNum) : DetectionResult :=
  match detectArithmetic sequence with
  | some r => r
  | none =>
    match detectGeometric sequence with
    | some r => r
    | none =>
      match detectPolynomial sequence with
      | some r => r
      | none =>
        { success := false
          error := some "Unable to detect a valid pattern in the sequence"
          type := .unknown
          sequence := some sequence }

/-- `analyze` from the source: the two validation guards, then the
waterfall on the numeric contents of the array (which may contain
infinities: only non-numbers and `NaN` are rejected). -/
def analyze : JSInput → DetectionResult
  | .notArray =>
    { success := false
      error := some "Sequence must be an array with at least 2 elements"
      type := .invalid }
  | .arr elems =>
    if elems.length < 2 then
      { success := false
        error := some "Sequence must be an array with at least 2 elements"
        type := .invalid }
    else if elems.any isInvalidElem then
      { success := false
        error := some "All elements must be valid numbers"
        type := .invalid }
    else
      analyzeNums (elems.filterMap toNum)

/-- The iteration of `predictMultiple`: run `analyze` on the current
sequence, stop on failure, otherwise record the prediction and append it
to the working sequence.  Returns the accumulated predictions and the
extended sequence. -/
def predictLoop : Nat → List JSNum → List JSNum × List JSNum
  | 0, currentSequence => ([], currentSequence)
  | count + 1, currentSequence =>
    let result := analyze (.arr (currentSequence.map ofNum))
    if result.success then
      let p := result.prediction.getD 0
      let rest := predictLoop count (currentSequence ++ [p])
      (p :: rest.1, rest.2)
    else ([], currentSequence)

/-- The numeric contents of an input (the numbers of the array). -/
def numsOf : JSInput → List JSNum
  | .arr elems => elems.filterMap toNum
  | .notArray => []

/-- `predictMultiple` from the source: if the first analysis fails it is
returned unchanged (no `predictions` field); otherwise the loop runs and
the first analysis is returned augmented with `predictions` and
`extendedSequence`. -/
def predictMultiple (input : JSInput) (count : Nat) : DetectionResult :=
  let analysis := analyze input
  if analysis.success then
    let rest := predictLoop count (numsOf input)
    { analysis with
        predictions := some rest.1
        extendedSequence := some rest.2 }
  else analysis

/-! ### Basic lemmas about the embedding -/

theorem filterMap_toNum_map_num (s : List ℚ) :
    (s.map JSVal.num).filterMap toNum = s.map JSNum.fin := by
  induction s with
  | nil => rfl
  | cons a t ih => simp [toNum, ih]

theorem any_isInvalidElem_map_num (s : List ℚ) :
    (s.map JSVal.num).any isInvalidElem = false := by
  induction s with
  | nil => rfl
  | cons a t ih => simp [isInvalidElem, ih]

theorem analyze_arr_of_valid (elems : List JSVal) (h2 : ¬ elems.length < 2)
    (hv : elems.any isInvalidElem = false) :
    analyze (.arr elems) = analyzeNums (elems.filterMap toNum) := by
  simp [analyze, h2, hv]

theorem analyze_map_num (s : List ℚ) (h : 2 ≤ s.length) :
    analyze (.arr (s.map JSVal.num)) = analyzeNums (s.map JSNum.fin) := by
  rw [analyze_arr_of_valid _ (by simpa using by omega) (any_isInvalidElem_map_num s),
    filterMap_toNum_map_num]

theorem length_consecutiveDiffs {α : Type} [Sub α] (s : List α) :
    (consecutiveDiffs s).length = s.length - 1 := by
  simp [consecutiveDiffs, List.length_zipWith, List.length_tail]

theorem length_consecutiveRatios {α : Type} [Div α] (s : List α) :
    (consecutiveRatios s).length = s.length - 1 := by
  simp [consecutiveRatios, List.length_zipWith, List.length_tail]

theorem mean_singleton (x : ℚ) : mean [x] = x := by
  simp [mean]

theorem mean_const {l : List ℚ} {r : ℚ} (hne : l ≠ []) (h : ∀ x ∈ l, x = r) :
    mean l = r := by
  have hl : l = List.replicate l.length r := by
    apply List.eq_replicate_iff.mpr
    exact ⟨rfl, h⟩
  have hn : (l.length : ℚ) ≠ 0 := by
    have := List.length_pos.mpr hne
    exact_mod_cast Nat.pos_iff_ne_zero.mp this
  calc mean l = (List.replicate l.length r).sum / l.length := by rw [mean, ← hl]
    _ = (l.length : ℚ) * r / l.length := by rw [List.sum_replicate, nsmul_eq_mul]
    _ = r := mul_div_cancel_left₀ r hn

theorem lastElem_concat {α : Type} [Zero α] (l : List α) (a : α) :
    lastElem (l ++ [a]) = a := by
  simp [lastElem, List.getLastD_concat]

/-! ### Bridge lemmas: the JS operations restricted to finite values -/

theorem fin_add_fin (a b : ℚ) : (JSNum.fin a + JSNum.fin b) = JSNum.fin (a + b) := rfl

theorem fin_sub_fin (a b : ℚ) : (JSNum.fin a - JSNum.fin b) = JSNum.fin (a - b) := rfl

theorem fin_mul_fin (a b : ℚ) : (JSNum.fin a * JSNum.fin b) = JSNum.fin (a * b) := rfl

theorem fin_div_fin (a : ℚ) {b : ℚ} (hb : b ≠ 0) :
    (JSNum.fin a / JSNum.fin b) = JSNum.fin (a / b) := by
  show jsDiv (JSNum.fin a) (JSNum.fin b) = JSNum.fin (a / b)
  simp [jsDiv, hb]

theorem jsAbs_fin (a : ℚ) : jsAbs (JSNum.fin a) = JSNum.fin |a| := rfl

theorem jsLt_fin_iff (a b : ℚ) : jsLt (JSNum.fin a) (JSNum.fin b) = true ↔ a < b := by
  simp [jsLt]

theorem headI_map_fin (s : List ℚ) : (s.map JSNum.fin).headI = JSNum.fin s.headI := by
  cases s <;> rfl

theorem getLastD_map_fin (s : List ℚ) (a : ℚ) :
    (s.map JSNum.fin).getLastD (JSNum.fin a) = JSNum.fin (s.getLastD a) := by
  induction s generalizing a with
  | nil => rfl
  | cons b t ih => rw [List.map_cons, List.getLastD_cons, List.getLastD_cons, ih]

theorem lastElem_map_fin (s : List ℚ) :
    lastElem (s.map JSNum.fin) = JSNum.fin (lastElem s) := by
  have h0 : (0 : JSNum) = JSNum.fin 0 := rfl
  rw [lastElem, lastElem, h0, getLastD_map_fin]

theorem foldl_add_map_fin (l : List ℚ) (a : ℚ) :
    List.foldl (· + ·) (JSNum.fin a) (l.map JSNum.fin) =
      JSNum.fin (List.foldl (· + ·) a l) := by
  induction l generalizing a with
  | nil => rfl
  | cons b t ih => simp [fin_add_fin, ih]

theorem foldl_add_eq_sum (l : List ℚ) (a : ℚ) :
    List.foldl (· + ·) a l = a + l.sum := by
  induction l generalizing a with
  | nil => simp
  | cons b t ih => simp [ih, add_assoc]

theorem jsMean_map_fin {l : List ℚ} (hne : l ≠ []) :
    jsMean (l.map JSNum.fin) = JSNum.fin (mean l) := by
  have hn : (l.length : ℚ) ≠ 0 := by
    have := List.length_pos.mpr hne
    exact_mod_cast Nat.pos_iff_ne_zero.mp this
  have h0 : (0 : JSNum) = JSNum.fin 0 := rfl
  rw [jsMean, List.length_map, h0, foldl_add_map_fin, foldl_add_eq_sum, zero_add,
    fin_div_fin _ hn, mean]

theorem consecutiveDiffs_map_fin (s : List ℚ) :
    consecutiveDiffs (s.map JSNum.fin) = (consecutiveDiffs s).map JSNum.fin := by
  induction s with
  | nil => rfl
  | cons a t ih =>
    cases t with
    | nil => rfl
    | cons b t2 =>
      have hstep : consecutiveDiffs ((a :: b :: t2).map JSNum.fin) =
          (JSNum.fin b - JSNum.fin a) :: consecutiveDiffs ((b :: t2).map JSNum.fin) := rfl
      rw [hstep, ih, fin_sub_fin]
      rfl

theorem consecutiveRatios_map_fin : ∀ (s : List ℚ), (∀ n ∈ s, n ≠ 0) →
    consecutiveRatios (s.map JSNum.fin) = (consecutiveRatios s).map JSNum.fin := by
  intro s
  induction s with
  | nil => intro _; rfl
  | cons a t ih =>
    intro hz
    cases t with
    | nil => rfl
    | cons b t2 =>
      have hstep : consecutiveRatios ((a :: b :: t2).map JSNum.fin) =
          (JSNum.fin b / JSNum.fin a) :: consecutiveRatios ((b :: t2).map JSNum.fin) := rfl
      rw [hstep, ih (fun n hn => hz n (List.mem_cons_of_mem _ hn)),
        fin_div_fin _ (hz a (by simp))]
      rfl

/-! ### Shape lemmas for the detectors -/

theorem detectArithmetic_of_cond {s : List JSNum}
    (h : ∀ d ∈ consecutiveDiffs s,
      jsLt (jsAbs (d - jsMean (consecutiveDiffs s))) (.fin tol) = true) :
    detectArithmetic s =
      some { success := true
             type := .arithmetic
             pattern := some "Arithmetic Progression"
             parameters := some (.arith (jsMean (consecutiveDiffs s)) s.headI)
             formula := some ("a(n) = " ++ toString s.headI ++ " + "
               ++ toString (jsMean (consecutiveDiffs s)) ++ " * (n - 1)")
             prediction := some (lastElem s + jsMean (consecutiveDiffs s))
             confidence := some 1
             sequence := some s } := by
  simp only [detectArithmetic]
  rw [if_pos h]

theorem detectArithmetic_of_not_cond {s : List JSNum}
    (h : ¬ ∀ d ∈ consecutiveDiffs s,
      jsLt (jsAbs (d - jsMean (consecutiveDiffs s))) (.fin tol) = true) :
    detectArithmetic s = none := by
  simp only [detectArithmetic]
  rw [if_neg h]

theorem detectArithmetic_some_spec {s : List JSNum} {r : DetectionResult}
    (h : detectArithmetic s = some r) :
    r.success = true ∧ r.type = PatternType.arithmetic ∧
    r.prediction = some (lastElem s + jsMean (consecutiveDiffs s)) ∧
    r.parameters = some (.arith (jsMean (consecutiveDiffs s)) s.headI) ∧
    r.confidence = some 1 := by
  simp only [detectArithmetic] at h
  split at h
  · cases h
    exact ⟨rfl, rfl, rfl, rfl, rfl⟩
  · simp at h

theorem detectArithmetic_none_cond {s : List JSNum} (h : detectArithmetic s = none) :
    ¬ ∀ d ∈ consecutiveDiffs s,
      jsLt (jsAbs (d - jsMean (consecutiveDiffs s))) (.fin tol) = true := by
  intro hc
  rw [detectArithmetic_of_cond hc] at h
  simp at h

theorem detectGeometric_none_of_zero {s : List JSNum} (h : ∃ n ∈ s, jsIsZero n = true) :
    detectGeometric s = none := by
  simp only [detectGeometric]
  rw [if_pos h]

theorem detectGeometric_of_cond {s : List JSNum}
    (hz : ¬ ∃ n ∈ s, jsIsZero n = true)
    (h : (∀ r ∈ consecutiveRatios s,
        jsLt (jsAbs (r - jsMean (consecutiveRatios s))) (.fin tol) = true) ∧
      jsLt (.fin tol) (jsAbs (jsMean (consecutiveRatios s))) = true) :
    detectGeometric s =
      some { success := true
             type := .geometric
             pattern := some "Geometric Progression"
             parameters := some (.geom (jsMean (consecutiveRatios s)) s.headI)
             formula := some ("a(n) = " ++ toString s.headI ++ " * "
               ++ toString (jsMean (consecutiveRatios s)) ++ "^(n - 1)")
             prediction := some (lastElem s * jsMean (consecutiveRatios s))
             confidence := some 1
             sequence := some s } := by
  simp only [detectGeometric]
  rw [if_neg hz, if_pos h]

theorem detectGeometric_some_spec {s : List JSNum} {r : DetectionResult}
    (h : detectGeometric s = some r) :
    r.success = true ∧ r.type = PatternType.geometric ∧
    r.prediction = some (lastElem s * jsMean (consecutiveRatios s)) ∧
    r.parameters = some (.geom (jsMean (consecutiveRatios s)) s.headI) := by
  simp only [detectGeometric] at h
  split at h
  · simp at h
  · split at h
    · cases h
      exact ⟨rfl, rfl, rfl, rfl⟩
    · simp at h

theorem detectPolynomial_some_spec {s : List JSNum} {r : DetectionResult}
    (h : detectPolynomial s = some r) :
    r.success = true ∧ r.type = PatternType.polynomial ∧
    r.parameters = some (.poly (polyLoop 5 0 s).2 (s :: (polyLoop 5 0 s).1)) ∧
    r.prediction = some (predictFromDifferences (s :: (polyLoop 5 0 s).1)) ∧
    0 < (polyLoop 5 0 s).2 ∧ (polyLoop 5 0 s).2 ≤ 4 ∧ 4 ≤ s.length := by
  simp only [detectPolynomial] at h
  split at h
  · simp at h
  · split at h
    · cases h
      rename_i hlen hdeg
      exact ⟨rfl, rfl, rfl, rfl, hdeg.1, hdeg.2, by omega⟩
    · simp at h

/-! ### Lemmas about the difference-table loop and the extension loop -/

theorem polyLoop_zero (level : Nat) (cur : List JSNum) : polyLoop 0 level cur = ([], 0) := rfl

theorem polyLoop_succ (fuel level : Nat) (cur : List JSNum) :
    polyLoop (fuel + 1) level cur =
      if 1 < cur.length then
        if 0 < (consecutiveDiffs cur).length ∧
            ∀ d ∈ consecutiveDiffs cur,
              jsLt (jsAbs (d - jsMean (consecutiveDiffs cur))) (.fin tol) = true then
          ([consecutiveDiffs cur], level + 1)
        else
          (consecutiveDiffs cur :: (polyLoop fuel (level + 1) (consecutiveDiffs cur)).1,
            (polyLoop fuel (level + 1) (consecutiveDiffs cur)).2)
      else ([], 0) := rfl

theorem polyLoop_snd_eq_zero_or (fuel : Nat) :
    ∀ (level : Nat) (cur : List JSNum),
      (polyLoop fuel level cur).2 = 0 ∨ level + 1 ≤ (polyLoop fuel level cur).2 := by
  induction fuel with
  | zero => intro level cur; exact Or.inl rfl
  | succ fuel ih =>
    intro level cur
    rw [polyLoop_succ]
    split
    · split
      · exact Or.inr (by simp)
      · rcases ih (level + 1) (consecutiveDiffs cur) with h | h
        · exact Or.inl h
        · exact Or.inr (by simpa using by omega)
    · exact Or.inl rfl

theorem polyLoop_chain (fuel : Nat) :
    ∀ (level : Nat) (cur : List JSNum),
      List.Chain' (fun a b => b = consecutiveDiffs a) (cur :: (polyLoop fuel level cur).1) := by
  induction fuel with
  | zero => intro level cur; simp [polyLoop_zero]
  | succ fuel ih =>
    intro level cur
    rw [polyLoop_succ]
    split
    · split
      · simp [List.chain'_cons]
      · exact List.Chain'.cons rfl (ih (level + 1) (consecutiveDiffs cur))
    · simp

theorem polyLoop_ne_nil (fuel : Nat) :
    ∀ (level : Nat) (cur : List JSNum), ∀ l ∈ (polyLoop fuel level cur).1, l ≠ [] := by
  induction fuel with
  | zero => intro level cur l hl; simp [polyLoop_zero] at hl
  | succ fuel ih =>
    intro level cur l hl
    rw [polyLoop_succ] at hl
    split at hl
    · rename_i hlen
      have hne : consecutiveDiffs cur ≠ [] := by
        have := length_consecutiveDiffs cur
        intro hc
        rw [hc] at this
        simp at this
        omega
      split at hl
      · simp at hl
        subst hl
        exact hne
      · simp at hl
        rcases hl with hl | hl
        · subst hl; exact hne
        · exact ih (level + 1) (consecutiveDiffs cur) l hl
    · simp at hl

theorem js_add_zero (x : JSNum) : x + 0 = x := by
  cases x with
  | fin a => show JSNum.fin (a + 0) = JSNum.fin a; rw [add_zero]
  | posInf => rfl
  | negInf => rfl
  | nan => rfl

theorem extendAll_cons_ne_nil (l : List JSNum) (ls : List (List JSNum)) :
    extendAll (l :: ls) ≠ [] := by
  cases ls with
  | nil => simp [extendAll]
  | cons next rest =>
    simp only [extendAll]
    split
    · simp
    · split <;> simp

theorem extendAll_headI_spec :
    ∀ (T : List (List JSNum)), T ≠ [] → (∀ l ∈ T, l ≠ []) →
      (extendAll T).headI ≠ [] ∧
      lastElem (extendAll T).headI = (T.map lastElem).sum := by
  intro T
  induction T with
  | nil => intro h; exact absurd rfl h
  | cons l0 tail ih =>
    intro _ hall
    cases tail with
    | nil =>
      refine ⟨by simpa [extendAll] using hall l0 (by simp), ?_⟩
      simp only [extendAll, List.map_cons, List.map_nil, List.sum_cons, List.sum_nil,
        List.headI]
      rw [js_add_zero]
    | cons l1 rest =>
      have htail := ih (by simp) (fun l hl => hall l (List.mem_cons_of_mem _ hl))
      obtain ⟨c, deeper, hE⟩ : ∃ c deeper, extendAll (l1 :: rest) = c :: deeper := by
        cases hx : extendAll (l1 :: rest) with
        | nil => exact absurd hx (extendAll_cons_ne_nil _ _)
        | cons c deeper => exact ⟨c, deeper, rfl⟩
      rw [hE] at htail
      simp only [List.headI] at htail
      have hc : 0 < c.length := List.length_pos.mpr htail.1
      have hstep : extendAll (l0 :: l1 :: rest) =
          (l0 ++ [lastElem l0 + lastElem c]) :: (c ++ [lastElem c]) :: deeper := by
        simp only [extendAll, hE]
        rw [if_pos hc]
      rw [hstep]
      constructor
      · simp
      · simp only [List.headI, List.map_cons, List.sum_cons, lastElem_concat, htail.2]

theorem predictFromDifferences_eq_sum {T : List (List JSNum)} (h1 : T ≠ [])
    (h2 : ∀ l ∈ T, l ≠ []) :
    predictFromDifferences T = (T.map lastElem).sum := by
  rw [predictFromDifferences, (extendAll_headI_spec T h1 h2).2]

theorem predictLoop_fst_length_le (count : Nat) :
    ∀ cur : List JSNum, (predictLoop count cur).1.length ≤ count := by
  induction count with
  | zero => intro cur; simp [predictLoop]
  | succ count ih =>
    intro cur
    simp only [predictLoop]
    split
    · simpa using ih _
    · simp

theorem arith_cond_map_fin (s : List ℚ) (h2 : 2 ≤ s.length) :
    (∀ d ∈ consecutiveDiffs (s.map JSNum.fin),
      jsLt (jsAbs (d - jsMean (consecutiveDiffs (s.map JSNum.fin)))) (.fin tol) = true) ↔
    (∀ d ∈ consecutiveDiffs s, |d - mean (consecutiveDiffs s)| < tol) := by
  have hdne : consecutiveDiffs s ≠ [] := by
    have hl := length_consecutiveDiffs s
    intro hc
    rw [hc] at hl
    simp at hl
    omega
  rw [consecutiveDiffs_map_fin, jsMean_map_fin hdne]
  constructor
  · intro h d hd
    have := h (JSNum.fin d) (List.mem_map_of_mem _ hd)
    rwa [fin_sub_fin, jsAbs_fin, jsLt_fin_iff] at this
  · intro h d hd
    obtain ⟨x, hx, rfl⟩ := List.mem_map.mp hd
    rw [fin_sub_fin, jsAbs_fin, jsLt_fin_iff]
    exact h x hx

/-! ### Claims -/

/-- C1: the claim says `analyze([1,2,4,7,13])` falls through to the
`unknown` fallback.  On the code it does not: the fifth difference level
is the singleton `[2]`, which is trivially constant, so the polynomial
detector accepts with degree 4 and prediction 26.  The repository's own
test suite asserts `success = false` and `type = unknown` for exactly
this input, so the code contradicts its own tests. -/
theorem c1_analyze_ambiguous_sequence_returns_polynomial :
    (analyze (.arr (([1, 2, 4, 7, 13] : List ℚ).map JSVal.num))).success = true ∧
    (analyze (.arr (([1, 2, 4, 7, 13] : List ℚ).map JSVal.num))).type =
      PatternType.polynomial ∧
    (analyze (.arr (([1, 2, 4, 7, 13] : List ℚ).map JSVal.num))).parameters =
      some (.poly 4 [[1, 2, 4, 7, 13], [1, 2, 3, 6], [1, 1, 3], [0, 2], [2]]) ∧
    (analyze (.arr (([1, 2, 4, 7, 13] : List ℚ).map JSVal.num))).prediction = some 26 := by
  with_unfolding_all decide

/-- C5: `analyze([1,4,9,16,25])` is polynomial of degree 2 with prediction
36, and `analyze([1,8,27,64,125])` has prediction 216. -/
theorem c5_polynomial_examples :
    (analyze (.arr (([1, 4, 9, 16, 25] : List ℚ).map JSVal.num))).type =
      PatternType.polynomial ∧
    (analyze (.arr (([1, 4, 9, 16, 25] : List ℚ).map JSVal.num))).parameters =
      some (.poly 2 [[1, 4, 9, 16, 25], [3, 5, 7, 9], [2, 2, 2]]) ∧
    (analyze (.arr (([1, 4, 9, 16, 25] : List ℚ).map JSVal.num))).prediction = some 36 ∧
    (analyze (.arr (([1, 8, 27, 64, 125] : List ℚ).map JSVal.num))).prediction =
      some 216 := by
  with_unfolding_all decide

/-- C6: `predictMultiple([3,6,9], 5)` predicts exactly `[12,15,18,21,24]`,
and `predictMultiple([2,4,8], 3)` predicts exactly `[16,32,64]`. -/
theorem c6_predict_multiple_examples :
    (predictMultiple (.arr (([3, 6, 9] : List ℚ).map JSVal.num)) 5).predictions =
      some [12, 15, 18, 21, 24] ∧
    (predictMultiple (.arr (([2, 4, 8] : List ℚ).map JSVal.num)) 3).predictions =
      some [16, 32, 64] := by
  with_unfolding_all decide

/-- C2 (amended): for every validated sequence, `analyze` classifies it as
arithmetic if and only if every consecutive difference differs from the
mean difference by STRICTLY LESS than the tolerance `1e-4` (the code uses
`<`, not `at most`); on success the prediction, parameters and confidence
are as claimed, and every length-2 validated sequence is classified
arithmetic. -/
theorem c2_arithmetic_classification (s : List ℚ) (h : 2 ≤ s.length) :
    ((analyze (.arr (s.map JSVal.num))).type = PatternType.arithmetic ↔
      ∀ d ∈ consecutiveDiffs s, |d - mean (consecutiveDiffs s)| < tol) ∧
    ((∀ d ∈ consecutiveDiffs s, |d - mean (consecutiveDiffs s)| < tol) →
      (analyze (.arr (s.map JSVal.num))).success = true ∧
      (analyze (.arr (s.map JSVal.num))).prediction =
        some (.fin (lastElem s + mean (consecutiveDiffs s))) ∧
      (analyze (.arr (s.map JSVal.num))).parameters =
        some (.arith (.fin (mean (consecutiveDiffs s))) (.fin s.headI)) ∧
      (analyze (.arr (s.map JSVal.num))).confidence = some 1) ∧
    (s.length = 2 → (analyze (.arr (s.map JSVal.num))).type = PatternType.arithmetic) := by
  rw [analyze_map_num s h]
  have hdne : consecutiveDiffs s ≠ [] := by
    have hl := length_consecutiveDiffs s
    intro hc
    rw [hc] at hl
    simp at hl
    omega
  have hmeanfin : jsMean (consecutiveDiffs (s.map JSNum.fin)) =
      JSNum.fin (mean (consecutiveDiffs s)) := by
    rw [consecutiveDiffs_map_fin, jsMean_map_fin hdne]
  have hsucc : ∀ _ : (∀ d ∈ consecutiveDiffs s, |d - mean (consecutiveDiffs s)| < tol),
      analyzeNums (s.map JSNum.fin) =
        { success := true
          type := .arithmetic
          pattern := some "Arithmetic Progression"
          parameters := some (.arith (.fin (mean (consecutiveDiffs s))) (.fin s.headI))
          formula := some ("a(n) = " ++ toString (JSNum.fin s.headI) ++ " + "
            ++ toString (JSNum.fin (mean (consecutiveDiffs s))) ++ " * (n - 1)")
          prediction := some (.fin (lastElem s + mean (consecutiveDiffs s)))
          confidence := some 1
          sequence := some (s.map JSNum.fin) } := by
    intro hc
    unfold analyzeNums
    rw [detectArithmetic_of_cond ((arith_cond_map_fin s h).mpr hc)]
    rw [hmeanfin, headI_map_fin, lastElem_map_fin, fin_add_fin]
  have hfail : ∀ _ : ¬ (∀ d ∈ consecutiveDiffs s, |d - mean (consecutiveDiffs s)| < tol),
      (analyzeNums (s.map JSNum.fin)).type ≠ PatternType.arithmetic := by
    intro hc
    have hA : detectArithmetic (s.map JSNum.fin) = none :=
      detectArithmetic_of_not_cond (fun hx => hc ((arith_cond_map_fin s h).mp hx))
    cases hG : detectGeometric (s.map JSNum.fin) with
    | some r =>
      have heq : analyzeNums (s.map JSNum.fin) = r := by
        unfold analyzeNums
        rw [hA, hG]
      rw [heq, (detectGeometric_some_spec hG).2.1]
      simp
    | none =>
      cases hP : detectPolynomial (s.map JSNum.fin) with
      | some r =>
        have heq : analyzeNums (s.map JSNum.fin) = r := by
          unfold analyzeNums
          rw [hA, hG, hP]
        rw [heq, (detectPolynomial_some_spec hP).2.1]
        simp
      | none =>
        unfold analyzeNums
        rw [hA, hG, hP]
        simp
  have hiff : (analyzeNums (s.map JSNum.fin)).type = PatternType.arithmetic ↔
      ∀ d ∈ consecutiveDiffs s, |d - mean (consecutiveDiffs s)| < tol := by
    constructor
    · intro ht
      by_contra hc
      exact hfail hc ht
    · intro hc
      rw [hsucc hc]
  refine ⟨hiff, fun hc => ?_, fun h2 => ?_⟩
  · rw [hsucc hc]
    exact ⟨rfl, rfl, rfl, rfl⟩
  · apply hiff.mpr
    obtain ⟨a, b, rfl⟩ := List.length_eq_two.mp h2
    have hd : consecutiveDiffs [a, b] = [b - a] := by simp [consecutiveDiffs]
    intro d hmem
    rw [hd] at hmem
    simp at hmem
    subst hmem
    rw [hd, mean_singleton, sub_self, abs_zero, tol]
    norm_num

/-- C2 counterexample: the claim's tolerance is "at most `1e-4`"; at
`[0, 0, 2/10000]` every consecutive difference is within `1e-4` of the
mean difference (non-strictly), yet the code classifies the sequence as
`unknown`, not arithmetic, because its comparison is strict. -/
theorem c2_tolerance_is_strict_counterexample :
    (∀ d ∈ consecutiveDiffs [0, 0, 2 / 10000],
      |d - mean (consecutiveDiffs [0, 0, 2 / 10000])| ≤ tol) ∧
    (analyze (.arr (([0, 0, 2 / 10000] : List ℚ).map JSVal.num))).type =
      PatternType.unknown := by
  with_unfolding_all decide

/-- C2 witness: the amended theorem applied at `[3, 6, 9]`. -/
theorem c2_arithmetic_classification_witness :
    (analyze (.arr (([3, 6, 9] : List ℚ).map JSVal.num))).type =
      PatternType.arithmetic :=
  (c2_arithmetic_classification [3, 6, 9] (by decide)).1.mpr
    (by with_unfolding_all decide)

/-- C3 (amended): every input that is not an array, is shorter than 2
elements, or contains a `NaN` or non-numeric element is rejected by the
validator with `success = false`, `type = invalid` and an error message,
and no detector output (prediction/parameters) is produced.  Non-finite
numbers other than `NaN` — the infinities — PASS the validator, which
checks only `isNaN`, so the original claim's "non-finite element (NaN or
equivalent)" had to be narrowed to `NaN`. -/
theorem c3_validator_rejects_invalid_input (input : JSInput)
    (h : input = .notArray ∨ ∃ elems, input = .arr elems ∧
      (elems.length < 2 ∨ ∃ v ∈ elems, isInvalidElem v = true)) :
    (analyze input).success = false ∧
    (analyze input).type = PatternType.invalid ∧
    (analyze input).error.isSome = true ∧
    (analyze input).parameters = none ∧
    (analyze input).prediction = none := by
  rcases h with rfl | ⟨elems, rfl, h⟩
  · exact ⟨rfl, rfl, rfl, rfl, rfl⟩
  · rcases h with h | ⟨v, hv, hbad⟩
    · simp [analyze, h]
    · by_cases h2 : elems.length < 2
      · simp [analyze, h2]
      · have ha : elems.any isInvalidElem = true := List.any_eq_true.mpr ⟨v, hv, hbad⟩
        simp [analyze, h2, ha]

/-- C3 counterexample: `[1, Infinity, 3]` contains a non-finite element,
yet the validator PASSES it (`typeof Infinity === number` and
`isNaN(Infinity)` is false), all three detectors run and decline (their
comparisons are poisoned by `NaN` intermediates), and `analyze` returns
`kind = unknown` — not `invalid` as the claim requires. -/
theorem c3_infinity_passes_validation_counterexample :
    isInvalidElem (JSVal.inf true) = false ∧
    (analyze (.arr [JSVal.num 1, JSVal.inf true, JSVal.num 3])).success = false ∧
    (analyze (.arr [JSVal.num 1, JSVal.inf true, JSVal.num 3])).type =
      PatternType.unknown ∧
    (analyze (.arr [JSVal.num 1, JSVal.inf true, JSVal.num 3])).type ≠
      PatternType.invalid ∧
    (analyze (.arr [JSVal.num 1, JSVal.inf true, JSVal.num 3])).error =
      some "Unable to detect a valid pattern in the sequence" := by
  with_unfolding_all decide

/-- C3 witness: the amended theorem applied to an array containing `NaN`. -/
theorem c3_validator_rejects_invalid_input_witness :
    (analyze (.arr [JSVal.num 1, JSVal.nan, JSVal.num 3])).success = false ∧
    (analyze (.arr [JSVal.num 1, JSVal.nan, JSVal.num 3])).type = PatternType.invalid ∧
    (analyze (.arr [JSVal.num 1, JSVal.nan, JSVal.num 3])).error.isSome = true ∧
    (analyze (.arr [JSVal.num 1, JSVal.nan, JSVal.num 3])).parameters = none ∧
    (analyze (.arr [JSVal.num 1, JSVal.nan, JSVal.num 3])).prediction = none :=
  c3_validator_rejects_invalid_input _
    (Or.inr ⟨_, rfl, Or.inr ⟨JSVal.nan, by simp, rfl⟩⟩)

/-- C4 (amended): a constant-ratio, zero-free sequence with `|r| > 1e-4`
is classified geometric with prediction `s[last] * r` PROVIDED the
arithmetic detector, which runs first, has declined (some consecutive
difference deviates from the mean difference by at least the tolerance);
without that proviso the arithmetic detector can win first. -/
theorem c4_geometric_detection (s : List ℚ) (r : ℚ) (h2 : 2 ≤ s.length)
    (hz : ∀ n ∈ s, n ≠ 0)
    (hr : ∀ x ∈ consecutiveRatios s, x = r)
    (htol : tol < |r|)
    (hna : ¬ ∀ d ∈ consecutiveDiffs s, |d - mean (consecutiveDiffs s)| < tol) :
    (analyze (.arr (s.map JSVal.num))).type = PatternType.geometric ∧
    (analyze (.arr (s.map JSVal.num))).prediction = some (.fin (lastElem s * r)) := by
  rw [analyze_map_num s h2]
  have hne : consecutiveRatios s ≠ [] := by
    have hl := length_consecutiveRatios s
    intro hc
    rw [hc] at hl
    simp at hl
    omega
  have hmean : mean (consecutiveRatios s) = r := mean_const hne hr
  have hratios : consecutiveRatios (s.map JSNum.fin) =
      (consecutiveRatios s).map JSNum.fin := consecutiveRatios_map_fin s hz
  have hmeanfin : jsMean (consecutiveRatios (s.map JSNum.fin)) = JSNum.fin r := by
    rw [hratios, jsMean_map_fin hne, hmean]
  have hz' : ¬ ∃ n ∈ s.map JSNum.fin, jsIsZero n = true := by
    rintro ⟨n, hn, hzero⟩
    obtain ⟨x, hx, rfl⟩ := List.mem_map.mp hn
    simp only [jsIsZero, decide_eq_true_eq] at hzero
    exact hz x hx hzero
  have hcond : (∀ x ∈ consecutiveRatios (s.map JSNum.fin),
      jsLt (jsAbs (x - jsMean (consecutiveRatios (s.map JSNum.fin)))) (.fin tol) = true) ∧
      jsLt (.fin tol) (jsAbs (jsMean (consecutiveRatios (s.map JSNum.fin)))) = true := by
    rw [hmeanfin, hratios]
    constructor
    · intro x hx
      obtain ⟨y, hy, rfl⟩ := List.mem_map.mp hx
      rw [fin_sub_fin, jsAbs_fin, jsLt_fin_iff, hr y hy, sub_self, abs_zero, tol]
      norm_num
    · rw [jsAbs_fin, jsLt_fin_iff]
      exact htol
  have hA : detectArithmetic (s.map JSNum.fin) = none :=
    detectArithmetic_of_not_cond (fun hx => hna ((arith_cond_map_fin s h2).mp hx))
  unfold analyzeNums
  rw [hA, detectGeometric_of_cond hz' hcond]
  refine ⟨rfl, ?_⟩
  show (some (lastElem (s.map JSNum.fin) * jsMean (consecutiveRatios (s.map JSNum.fin)))
      : Option JSNum) = some (.fin (lastElem s * r))
  rw [hmeanfin, lastElem_map_fin, fin_mul_fin]

/-- C4 counterexample: `[1, 2]` is zero-free with constant ratio `2` and
`|2| > 1e-4`, yet `analyze` classifies it as arithmetic (the arithmetic
detector runs first and accepts every length-2 sequence), not geometric. -/
theorem c4_arithmetic_wins_first_counterexample :
    (∀ n ∈ ([1, 2] : List ℚ), n ≠ 0) ∧
    (∀ x ∈ consecutiveRatios ([1, 2] : List ℚ), x = 2) ∧
    tol < |(2 : ℚ)| ∧
    (analyze (.arr (([1, 2] : List ℚ).map JSVal.num))).type = PatternType.arithmetic ∧
    (analyze (.arr (([1, 2] : List ℚ).map JSVal.num))).type ≠ PatternType.geometric := by
  with_unfolding_all decide

/-- C4 witness: the amended theorem applied at `[2, 4, 8]`, `r = 2`. -/
theorem c4_geometric_detection_witness :
    (analyze (.arr (([2, 4, 8] : List ℚ).map JSVal.num))).type =
      PatternType.geometric ∧
    (analyze (.arr (([2, 4, 8] : List ℚ).map JSVal.num))).prediction =
      some (.fin (lastElem [2, 4, 8] * 2)) :=
  c4_geometric_detection [2, 4, 8] 2 (by decide)
    (by with_unfolding_all decide)
    (by with_unfolding_all decide)
    (by with_unfolding_all decide)
    (by with_unfolding_all decide)

/-- C7 (amended): whenever `analyze` succeeds with kind polynomial, the
returned parameters hold the detected degree and the difference table AS
BUILT (level 0 is the input's numeric sequence and every deeper level is
the consecutive-difference list of the previous one — the levels are NOT
extended), and the prediction equals the cumulative-sum reconstruction
value, i.e. the sum of the last elements of all levels of that table. -/
theorem c7_polynomial_parameters_and_prediction (input : JSInput)
    (h : (analyze input).type = PatternType.polynomial) :
    ∃ degree T, (analyze input).parameters = some (.poly degree T) ∧
      T.headI = numsOf input ∧
      List.Chain' (fun a b => b = consecutiveDiffs a) T ∧
      (∀ l ∈ T, l ≠ []) ∧
      (analyze input).prediction = some ((T.map lastElem).sum) := by
  cases input with
  | notArray => simp [analyze] at h
  | arr elems =>
    by_cases h2 : elems.length < 2
    · simp [analyze, h2] at h
    · by_cases hv : elems.any isInvalidElem = true
      · simp [analyze, h2, hv] at h
      · have hval := analyze_arr_of_valid elems h2 (by simpa using hv)
        rw [hval] at h ⊢
        cases hA : detectArithmetic (elems.filterMap toNum) with
        | some r =>
          have heq : analyzeNums (elems.filterMap toNum) = r := by
            unfold analyzeNums
            rw [hA]
          rw [heq, (detectArithmetic_some_spec hA).2.1] at h
          simp at h
        | none =>
          cases hG : detectGeometric (elems.filterMap toNum) with
          | some r =>
            have heq : analyzeNums (elems.filterMap toNum) = r := by
              unfold analyzeNums
              rw [hA, hG]
            rw [heq, (detectGeometric_some_spec hG).2.1] at h
            simp at h
          | none =>
            cases hP : detectPolynomial (elems.filterMap toNum) with
            | none =>
              unfold analyzeNums at h
              rw [hA, hG, hP] at h
              simp at h
            | some r =>
              have heq : analyzeNums (elems.filterMap toNum) = r := by
                unfold analyzeNums
                rw [hA, hG, hP]
              rw [heq]
              obtain ⟨-, -, hparams, hpred, -, -, hlen⟩ := detectPolynomial_some_spec hP
              have hall : ∀ l ∈ elems.filterMap toNum ::
                  (polyLoop 5 0 (elems.filterMap toNum)).1, l ≠ [] := by
                intro l hl
                rcases List.mem_cons.mp hl with rfl | hl
                · intro hc
                  rw [hc] at hlen
                  simp at hlen
                · exact polyLoop_ne_nil 5 0 _ l hl
              refine ⟨(polyLoop 5 0 (elems.filterMap toNum)).2,
                elems.filterMap toNum :: (polyLoop 5 0 (elems.filterMap toNum)).1,
                hparams, rfl, polyLoop_chain 5 0 _, hall, ?_⟩
              rw [hpred, predictFromDifferences_eq_sum (by simp) hall]

/-- C7 counterexample: at `[1, 4, 9, 16, 25]` the returned parameters hold
the UNEXTENDED difference table (level 0 is the input itself, whose last
value 25 is not the prediction 36), contradicting the claim that every
level is extended by one and that the appended level-0 value equals the
prediction. -/
theorem c7_table_not_extended_counterexample :
    (analyze (.arr (([1, 4, 9, 16, 25] : List ℚ).map JSVal.num))).type =
      PatternType.polynomial ∧
    (analyze (.arr (([1, 4, 9, 16, 25] : List ℚ).map JSVal.num))).prediction =
      some 36 ∧
    (analyze (.arr (([1, 4, 9, 16, 25] : List ℚ).map JSVal.num))).parameters =
      some (.poly 2 [[1, 4, 9, 16, 25], [3, 5, 7, 9], [2, 2, 2]]) ∧
    lastElem ([[1, 4, 9, 16, 25], [3, 5, 7, 9], [2, 2, 2]] : List (List JSNum)).headI ≠
      (36 : JSNum) := by
  with_unfolding_all decide

/-- C7 witness: the amended theorem applied at `[1, 4, 9, 16, 25]`. -/
theorem c7_polynomial_parameters_and_prediction_witness :
    ∃ degree T,
      (analyze (.arr (([1, 4, 9, 16, 25] : List ℚ).map JSVal.num))).parameters =
        some (.poly degree T) ∧
      T.headI = numsOf (.arr (([1, 4, 9, 16, 25] : List ℚ).map JSVal.num)) ∧
      List.Chain' (fun a b => b = consecutiveDiffs a) T ∧
      (∀ l ∈ T, l ≠ []) ∧
      (analyze (.arr (([1, 4, 9, 16, 25] : List ℚ).map JSVal.num))).prediction =
        some ((T.map lastElem).sum) :=
  c7_polynomial_parameters_and_prediction _ (by with_unfolding_all decide)

/-- C8: a sequence containing a zero element is never classified geometric:
the geometric detector short-circuits (returns `none`) before computing
any ratio, and no other branch of `analyze` produces kind geometric. -/
theorem c8_zero_guard (s : List ℚ) (h : 0 ∈ s) :
    detectGeometric (s.map JSNum.fin) = none ∧
    (analyze (.arr (s.map JSVal.num))).type ≠ PatternType.geometric := by
  have hg : detectGeometric (s.map JSNum.fin) = none :=
    detectGeometric_none_of_zero
      ⟨JSNum.fin 0, List.mem_map_of_mem _ h, by simp [jsIsZero]⟩
  refine ⟨hg, ?_⟩
  by_cases h2 : 2 ≤ s.length
  · rw [analyze_map_num s h2]
    cases hA : detectArithmetic (s.map JSNum.fin) with
    | some r =>
      have heq : analyzeNums (s.map JSNum.fin) = r := by
        unfold analyzeNums
        rw [hA]
      rw [heq, (detectArithmetic_some_spec hA).2.1]
      simp
    | none =>
      cases hP : detectPolynomial (s.map JSNum.fin) with
      | some r =>
        have heq : analyzeNums (s.map JSNum.fin) = r := by
          unfold analyzeNums
          rw [hA, hg, hP]
        rw [heq, (detectPolynomial_some_spec hP).2.1]
        simp
      | none =>
        unfold analyzeNums
        rw [hA, hg, hP]
        simp
  · have hlen : s.length < 2 := by omega
    simp [analyze, hlen]

/-- C8 witness: the theorem applied at `[1, 0, 2]`. -/
theorem c8_zero_guard_witness :
    detectGeometric (([1, 0, 2] : List ℚ).map JSNum.fin) = none ∧
    (analyze (.arr (([1, 0, 2] : List ℚ).map JSVal.num))).type ≠
      PatternType.geometric :=
  c8_zero_guard [1, 0, 2] (by simp)

/-- C9 (amended): when the first analysis succeeds, `predictMultiple`
returns it augmented with a present predictions list of length at most
the requested count (empty when the count is 0) and with unchanged
`success`/`type`; when the first analysis fails, the analysis is returned
unchanged and carries NO predictions list. -/
theorem c9_predict_multiple_contract (input : JSInput) (count : Nat) :
    ((analyze input).success = false → predictMultiple input count = analyze input) ∧
    ((analyze input).success = true →
      (predictMultiple input count).success = (analyze input).success ∧
      (predictMultiple input count).type = (analyze input).type ∧
      ∃ ps, (predictMultiple input count).predictions = some ps ∧
        ps.length ≤ count ∧ (count = 0 → ps = [])) := by
  constructor
  · intro h
    simp [predictMultiple, h]
  · intro h
    have hm : predictMultiple input count =
        { analyze input with
            predictions := some (predictLoop count (numsOf input)).1
            extendedSequence := some (predictLoop count (numsOf input)).2 } := by
      simp [predictMultiple, h]
    rw [hm]
    refine ⟨rfl, rfl, (predictLoop count (numsOf input)).1, rfl,
      predictLoop_fst_length_le count _, fun hc => ?_⟩
    subst hc
    rfl

/-- C9 counterexample: for the empty sequence the first analysis fails and
`predictMultiple` returns it unchanged, with NO predictions list — the
claim requires a present, empty predictions list for every sequence. -/
theorem c9_missing_predictions_counterexample :
    (analyze (.arr ([] : List JSVal))).success = false ∧
    (predictMultiple (.arr ([] : List JSVal)) 0).predictions = none := by
  with_unfolding_all decide

/-- C9 witness: the amended theorem applied at `[3, 6, 9]` with count 0. -/
theorem c9_predict_multiple_contract_witness :
    (predictMultiple (.arr (([3, 6, 9] : List ℚ).map JSVal.num)) 0).predictions =
      some [] := by
  obtain ⟨-, -, ps, hps, -, h0⟩ :=
    (c9_predict_multiple_contract (.arr (([3, 6, 9] : List ℚ).map JSVal.num)) 0).2
      (by with_unfolding_all decide)
  rw [hps, h0 rfl]

/-- C10: `analyze` never returns kind polynomial with degree 1: the
polynomial detector's level-1 constancy test is the arithmetic detector's
test, which has already declined whenever the polynomial detector runs,
so the detected degree is never 1. -/
theorem c10_degree_one_unreachable (input : JSInput) :
    ¬ ((analyze input).type = PatternType.polynomial ∧
      ∃ T, (analyze input).parameters = some (.poly 1 T)) := by
  rintro ⟨htype, T, hparam⟩
  cases input with
  | notArray => simp [analyze] at hparam
  | arr elems =>
    by_cases h2 : elems.length < 2
    · simp [analyze, h2] at hparam
    · by_cases hv : elems.any isInvalidElem = true
      · simp [analyze, h2, hv] at hparam
      · rw [analyze_arr_of_valid elems h2 (by simpa using hv)] at hparam
        cases hA : detectArithmetic (elems.filterMap toNum) with
        | some r =>
          have heq : analyzeNums (elems.filterMap toNum) = r := by
            unfold analyzeNums
            rw [hA]
          rw [heq, (detectArithmetic_some_spec hA).2.2.2.1] at hparam
          simp at hparam
        | none =>
          cases hG : detectGeometric (elems.filterMap toNum) with
          | some r =>
            have heq : analyzeNums (elems.filterMap toNum) = r := by
              unfold analyzeNums
              rw [hA, hG]
            rw [heq, (detectGeometric_some_spec hG).2.2.2] at hparam
            simp at hparam
          | none =>
            cases hP : detectPolynomial (elems.filterMap toNum) with
            | none =>
              unfold analyzeNums at hparam
              rw [hA, hG, hP] at hparam
              simp at hparam
            | some r =>
              have heq : analyzeNums (elems.filterMap toNum) = r := by
                unfold analyzeNums
                rw [hA, hG, hP]
              rw [heq] at hparam
              obtain ⟨-, -, hparams, -, -, -, hlen⟩ := detectPolynomial_some_spec hP
              rw [hparams] at hparam
              simp only [Option.some.injEq, DetectionParams.poly.injEq] at hparam
              obtain ⟨hdeg, -⟩ := hparam
              have hnc := detectArithmetic_none_cond hA
              have h1 : 1 < (elems.filterMap toNum).length := by omega
              have hstep : (polyLoop 5 0 (elems.filterMap toNum)).2 =
                  (polyLoop 4 1 (consecutiveDiffs (elems.filterMap toNum))).2 := by
                rw [show (5 : Nat) = 4 + 1 from rfl, polyLoop_succ, if_pos h1,
                  if_neg (fun hc => hnc hc.2)]
              rw [hstep] at hdeg
              rcases polyLoop_snd_eq_zero_or 4 1
                  (consecutiveDiffs (elems.filterMap toNum)) with hz | hz
              · rw [hdeg] at hz
                omega
              · rw [hdeg] at hz
                omega

/-- C10 witness: the theorem applied at `[1, 4, 9, 16, 25]`. -/
theorem c10_degree_one_unreachable_witness :
    ¬ ((analyze (.arr (([1, 4, 9, 16, 25] : List ℚ).map JSVal.num))).type =
        PatternType.polynomial ∧
      ∃ T, (analyze (.arr (([1, 4, 9, 16, 25] : List ℚ).map JSVal.num))).parameters =
        some (.poly 1 T)) :=
  c10_degree_one_unreachable _
